import Mathlib

/-!
Verification development for the netcup-dyndns repository.

The definitions below are a shallow embedding of the Python sources:

* `src/nc_api/dns.py`   — `DNSRecord`, `DNSRecordSet`, `DNSZone` and the
  record-merge algorithm `DNSRecordSet.add`;
* `src/nc_api/nc_api.py` — the `NcAPI` session protocol (`nc_request`,
  `_send`, `__exit__`, `_logout` and the authenticated actions);
* `src/dyndns.py`       — the ttl-update slice of the `dyndns` command.

Python's in-place mutation is modelled by explicit state passing; Python
exceptions are modelled by `Except`-style results that also carry the state
at raise time (mutations performed before a raise persist, as they do on a
Python object); JSON values are modelled by the small `JAtom`/`JVal` types;
Python `dict` literals and `{**a, **b}` merges are modelled by association
lists with last-write-wins insertion (`dictInsert`/`dictMerge`), which
reproduces CPython's key-ordering and override semantics.
-/

/-- A JSON atom: string, integer, boolean or `None`/`null`. -/
inductive JAtom where
  | aStr (v : String)
  | aInt (v : Int)
  | aBool (v : Bool)
  | aNone
deriving DecidableEq, Repr

/-- A JSON value as it occurs in this program's payloads and responses:
an atom, a flat dictionary of atoms (e.g. a serialised `DNSZone` or a
single serialised record), a `{"dnsrecords": [...]}` wrapper dictionary
(a serialised `DNSRecordSet`), or a bare list of record dictionaries. -/
inductive JVal where
  | atom (a : JAtom)
  | dict (d : List (String × JAtom))
  | rset (v : List (List (String × JAtom)))
  | rlist (v : List (List (String × JAtom)))
deriving DecidableEq, Repr

/-- Python `d[k] = v` on a dict modelled as an association list: an existing
key keeps its position and gets the new value, a new key is appended. -/
def dictInsert (d : List (String × JVal)) (k : String) (v : JVal) :
    List (String × JVal) :=
  if d.any (fun p => p.1 == k) then
    d.map (fun p => if p.1 == k then (k, v) else p)
  else
    d ++ [(k, v)]

/-- Python `{**a, **b}`: fold the entries of `b` into `a` left to right. -/
def dictMerge (a b : List (String × JVal)) : List (String × JVal) :=
  b.foldl (fun acc p => dictInsert acc p.1 p.2) a

/-- Python `k in d`. -/
def hasKeyD (d : List (String × JVal)) (k : String) : Bool :=
  d.any (fun p => p.1 == k)

/-- Python `d[k]` as an `Option` (first entry with the key; on dicts built
by `dictInsert` keys are unique). -/
def lookupD (d : List (String × JVal)) (k : String) : Option JVal :=
  (d.find? (fun p => p.1 == k)).map (fun p => p.2)

/-! ## `src/nc_api/dns.py` -/

/-- Dataclass `DNSRecord` (dns.py lines 31–43). -/
structure DNSRecord where
  hostname : String
  destination : String
  type : String
  id : Option Int := none
  priority : Int := 0
  deleterecord : Bool := false
  state : Option String := none
deriving DecidableEq, Repr

/-- `DNSRecord.needs_update` (dns.py lines 45–51). -/
def DNSRecord.needs_update (self record : DNSRecord) : Bool :=
  self.destination != record.destination || self.type != record.type

/-- `DNSRecord.update` (dns.py lines 53–71): copy `destination` and `type`
from `record` when they differ; the returned `Bool` is `bool(modified)`.
The mutated `self` is returned explicitly. -/
def DNSRecord.update (self record : DNSRecord) : DNSRecord × Bool :=
  let s1 := if self.destination == record.destination then (self, false)
            else ({ self with destination := record.destination }, true)
  let s2 := if s1.1.type == record.type then (s1.1, s1.2)
            else ({ s1.1 with type := record.type }, true)
  s2

/-- Dataclass `DNSRecordSet` (dns.py lines 74–80). -/
structure DNSRecordSet where
  dnsrecords : List DNSRecord
deriving DecidableEq, Repr

/-- `DNSRecordSet.get_by_hostname` (dns.py lines 101–107). -/
def DNSRecordSet.get_by_hostname (self : DNSRecordSet) (hostname : String) :
    List DNSRecord :=
  self.dnsrecords.filter (fun r => r.hostname == hostname)

/-- In-place mutation of the first list element satisfying `p` by
`DNSRecord.update` — this is what `same_hosts[i].update(record)` does in
Python, since `same_hosts` holds references into `self.dnsrecords`.
Returns the new list and the `Bool` returned by `update` (`false` when no
element satisfies `p`). -/
def updateFirstWhere (p : DNSRecord → Bool) (record : DNSRecord) :
    List DNSRecord → List DNSRecord × Bool
  | [] => ([], false)
  | r :: rs =>
    if p r then
      let u := r.update record
      (u.1 :: rs, u.2)
    else
      let t := updateFirstWhere p record rs
      (r :: t.1, t.2)

/-- Result of `DNSRecordSet.add`: either a normal return carrying the new
set and the returned `Bool`, or a raised Python exception (named by its
class) carrying the set as mutated up to the raise point. -/
inductive AddResult where
  | ok (set : DNSRecordSet) (changed : Bool)
  | exc (name : String) (set : DNSRecordSet)
deriving DecidableEq, Repr

/-- The record set carried by an `AddResult`. -/
def AddResult.setOf : AddResult → DNSRecordSet
  | .ok s _ => s
  | .exc _ s => s

/-- `true` iff the `AddResult` is a normal return. -/
def AddResult.isOk : AddResult → Bool
  | .ok _ _ => true
  | .exc _ _ => false

/-- The `changed` flag of a normal `AddResult` (meaningless on `exc`). -/
def AddResult.changedOf : AddResult → Bool
  | .ok _ c => c
  | .exc _ _ => false

/-- `DNSRecordSet.add` (dns.py lines 109–143).

Notable faithfulness points:
* in the two-match branch with a non-A/AAAA desired type the code runs
  `same_hosts[0].update(record)` and then `self.dnsrecords.delete(...)`;
  Python lists have no `delete` method, so this raises `AttributeError`
  after the first match has already been updated in place;
* in the two-match branch with an A/AAAA desired type,
  `next(filter(...))` raises `StopIteration` when neither of the two
  matches has the desired type. -/
def DNSRecordSet.add (self : DNSRecordSet) (record : DNSRecord) : AddResult :=
  let same_hosts := self.get_by_hostname record.hostname
  if same_hosts.isEmpty then
    -- not present, just append
    .ok ⟨self.dnsrecords ++ [record]⟩ true
  else if same_hosts.length == 2 then
    if !(record.type == "A" || record.type == "AAAA") then
      -- same_hosts[0].update(record); then `self.dnsrecords.delete(...)`
      -- raises AttributeError (no such list method)
      let t := updateFirstWhere (fun r => r.hostname == record.hostname)
                 record self.dnsrecords
      .exc "AttributeError" ⟨t.1⟩
    else
      match same_hosts.find? (fun x => x.type == record.type) with
      | none => .exc "StopIteration" self
      | some _ =>
        let t := updateFirstWhere
                   (fun r => r.hostname == record.hostname &&
                             r.type == record.type)
                 record self.dnsrecords
        .ok ⟨t.1⟩ t.2
  else if (record.type == "A" && same_hosts.head?.map (·.type) == some "AAAA")
       || (record.type == "AAAA" && same_hosts.head?.map (·.type) == some "A")
  then
    .ok ⟨self.dnsrecords ++ [record]⟩ true
  else
    -- an arbitrary entry that does not fit to the current one
    let t := updateFirstWhere (fun r => r.hostname == record.hostname)
               record self.dnsrecords
    .ok ⟨t.1⟩ t.2

/-- Dataclass `DNSZone` (dns.py lines 146–157).  `ttl`, `serial` and
`dnssecstatus` hold raw JSON atoms: `infoDnsZone` stores an `int(...)`
result in `ttl`, but `dyndns` later assigns `settings.get("ttl")` — an
arbitrary JSON value — to it, so the field is atom-typed. -/
structure DNSZone where
  name : String
  ttl : JAtom
  serial : JAtom
  refresh : Int
  retry : Int
  expire : Int
  dnssecstatus : JAtom
deriving DecidableEq, Repr

/-- `dataclasses.asdict` on a `DNSRecord` (field declaration order). -/
def DNSRecord.json (r : DNSRecord) : List (String × JAtom) :=
  [("hostname", .aStr r.hostname),
   ("destination", .aStr r.destination),
   ("type", .aStr r.type),
   ("id", match r.id with | some n => .aInt n | none => .aNone),
   ("priority", .aInt r.priority),
   ("deleterecord", .aBool r.deleterecord),
   ("state", match r.state with | some s => .aStr s | none => .aNone)]

/-- `DNSRecordSet.json` via the `JSONMixin` (dns.py lines 18–28):
`{"dnsrecords": [...]}`. -/
def DNSRecordSet.json (s : DNSRecordSet) : JVal :=
  .rset (s.dnsrecords.map DNSRecord.json)

/-- `DNSZone.json` via the `JSONMixin` (field declaration order). -/
def DNSZone.json (z : DNSZone) : JVal :=
  .dict [("name", .aStr z.name),
         ("ttl", z.ttl),
         ("serial", z.serial),
         ("refresh", .aInt z.refresh),
         ("retry", .aInt z.retry),
         ("expire", .aInt z.expire),
         ("dnssecstatus", z.dnssecstatus)]

/-! ## `src/nc_api/nc_api.py` -/

/-- A Python exception escaping the modelled `NcAPI` code: `APIException`
with its message, a `KeyError`/`TypeError`/`ValueError` from response
parsing, or `RecursionError` when the teardown recursion in
`_send → __exit__ → _logout → _send` never bottoms out (modelled by fuel
exhaustion). -/
inductive PyExc where
  | apiException (msg : String)
  | keyError (k : String)
  | typeError
  | valueError
  | recursionError
deriving DecidableEq, Repr

/-- One application-level response from the remote endpoint (the wire
contract's `{status, longmessage, responsedata}`); HTTP transport is
assumed to deliver a 2xx, so `raise_for_status()` never fires in the
model. -/
structure NcResponse where
  status : String
  longmessage : String
  responsedata : JVal
deriving Repr

/-- The mutable state of an `NcAPI` instance (nc_api.py lines 18–25):
credentials, whether `self._session` has been created, and
`self._session_id`. -/
structure NcState where
  api_url : String
  api_key : String
  api_password : String
  customer_id : String
  session_open : Bool := false
  session_id : Option String := none
deriving Repr

/-- A request payload `{"action": ..., "param": {...}}`
(nc_api.py lines 51–56). -/
structure Payload where
  action : String
  param : List (String × JVal)
deriving DecidableEq, Repr

/-- The remote world: an infinite script of responses (indexed by how many
posts have happened) and the trace of payloads posted so far. -/
structure World where
  responses : Nat → NcResponse
  idx : Nat := 0
  sent : List Payload := []

/-- Python `str.lower`, modelled as per-character lowering (the protocol's
status strings are ASCII). -/
def pyLower (s : String) : String := ⟨s.data.map Char.toLower⟩

/-- The value `self._session_id` contributes to a parameter dict. -/
def sidVal : Option String → JVal
  | some s => .atom (.aStr s)
  | none => .atom .aNone

/-- `NcAPI.nc_request` (nc_api.py lines 37–58): for any action other than
`login` the stored session id is merged in under `apisessionid` (caller
parameters override it, as in the Python dict literal), and the result is
wrapped with `customernumber` and `apikey`. -/
def nc_request (st : NcState) (action : String)
    (parameters : List (String × JVal)) : Payload :=
  let parameters :=
    if action != "login" then
      dictMerge [("apisessionid", sidVal st.session_id)] parameters
    else parameters
  { action := action,
    param := dictMerge
      [("customernumber", .atom (.aStr st.customer_id)),
       ("apikey", .atom (.aStr st.api_key))]
      parameters }

mutual

/-- `NcAPI._send` (nc_api.py lines 71–92), in one fuel-indexed mutual
recursion with `exitF` and `logoutF`: post the payload, and on a
non-success status call `self.__exit__()` (which, while a session id is
stored, calls `_logout`, which calls `_send` again) before raising
`APIException(longmessage)`.  Any exception escaping the nested
`__exit__` propagates, and the original `APIException` is then never
raised.  Fuel `0` models Python's `RecursionError` on the unbounded
teardown recursion. -/
def sendF : Nat → NcState → World → Payload →
    Except PyExc JVal × NcState × World
  | 0, st, w, _ => (.error .recursionError, st, w)
  | fuel + 1, st, w, payload =>
    -- `self.session` creates the requests Session on first use
    let st := { st with session_open := true }
    let resp := w.responses w.idx
    let w := { w with idx := w.idx + 1, sent := w.sent ++ [payload] }
    if pyLower resp.status == "success" then
      (.ok resp.responsedata, st, w)
    else
      match exitF fuel st w with
      | (.error e, st', w') => (.error e, st', w')
      | (.ok _, st', w') => (.error (.apiException resp.longmessage), st', w')
termination_by structural fuel _ _ _ => fuel

/-- `NcAPI.__exit__` (nc_api.py lines 31–35): run `_logout` while a
session id is stored, then close the underlying requests session. -/
def exitF : Nat → NcState → World → Except PyExc Unit × NcState × World
  | 0, st, w => (.error .recursionError, st, w)
  | fuel + 1, st, w =>
    match st.session_id with
    | some _ =>
      match logoutF fuel st w with
      | (.error e, st', w') => (.error e, st', w')
      | (.ok _, st', w') => (.ok (), { st' with session_open := false }, w')
    | none => (.ok (), { st with session_open := false }, w)
termination_by structural fuel _ _ => fuel

/-- `NcAPI._logout` (nc_api.py lines 105–112): send the `logout` action,
and only after a successful send clear `self._session_id`. -/
def logoutF : Nat → NcState → World → Except PyExc Unit × NcState × World
  | 0, st, w => (.error .recursionError, st, w)
  | fuel + 1, st, w =>
    match sendF fuel st w (nc_request st "logout" []) with
    | (.error e, st', w') => (.error e, st', w')
    | (.ok _, st', w') => (.ok (), { st' with session_id := none }, w')
termination_by structural fuel _ _ => fuel

end

/-- Python `int(...)` on a JSON atom. -/
def pyIntOf : JAtom → Except PyExc Int
  | .aInt n => .ok n
  | .aStr s => match s.toInt? with
               | some n => .ok n
               | none => .error .valueError
  | .aBool b => .ok (if b then 1 else 0)
  | .aNone => .error .typeError

/-- Python `data[k]` on a response value expected to be a dictionary. -/
def pyGetAtom (j : JVal) (k : String) : Except PyExc JAtom :=
  match j with
  | .dict d =>
    match d.find? (fun p => p.1 == k) with
    | some p => .ok p.2
    | none => .error (.keyError k)
  | _ => .error .typeError

/-- Python `data["dnsrecords"]` on a `{"dnsrecords": [...]}` response. -/
def pyGetRecords (j : JVal) : Except PyExc (List (List (String × JAtom))) :=
  match j with
  | .rset v => .ok v
  | _ => .error .typeError

/-- Build the `DNSZone` of `NcAPI.infoDnsZone` (nc_api.py lines 122–129)
from the `responsedata`. -/
def parseDnsZone (domainname : String) (data : JVal) :
    Except PyExc DNSZone := do
  let ttlA ← pyGetAtom data "ttl"
  let ttl ← pyIntOf ttlA
  let serial ← pyGetAtom data "serial"
  let refreshA ← pyGetAtom data "refresh"
  let refresh ← pyIntOf refreshA
  let retryA ← pyGetAtom data "retry"
  let retry ← pyIntOf retryA
  let expireA ← pyGetAtom data "expire"
  let expire ← pyIntOf expireA
  let dnssec ← pyGetAtom data "dnssecstatus"
  pure { name := domainname, ttl := .aInt ttl, serial := serial,
         refresh := refresh, retry := retry, expire := expire,
         dnssecstatus := dnssec }

/-- Python `r[k]` on a single serialised record dictionary. -/
def recGet (r : List (String × JAtom)) (k : String) : Except PyExc JAtom :=
  match r.find? (fun p => p.1 == k) with
  | some p => .ok p.2
  | none => .error (.keyError k)

/-- Build one `DNSRecord` of `NcAPI.infoDnsRecords`
(nc_api.py lines 144–150). -/
def parseDnsRecord (r : List (String × JAtom)) : Except PyExc DNSRecord := do
  let idA ← recGet r "id"
  let idN ← pyIntOf idA
  let hostA ← recGet r "hostname"
  let host ← match hostA with | .aStr s => Except.ok s
                              | _ => Except.error .typeError
  let tyA ← recGet r "type"
  let ty ← match tyA with | .aStr s => Except.ok s
                          | _ => Except.error .typeError
  let prioA ← recGet r "priority"
  let prio ← pyIntOf prioA
  let destA ← recGet r "destination"
  let dest ← match destA with | .aStr s => Except.ok s
                              | _ => Except.error .typeError
  let delA ← recGet r "deleterecord"
  let del ← match delA with | .aBool b => Except.ok b
                            | _ => Except.error .typeError
  let stA ← recGet r "state"
  let sta ← match stA with | .aStr s => Except.ok (some s)
                           | .aNone => Except.ok none
                           | _ => Except.error .typeError
  pure { id := some idN, hostname := host, type := ty, priority := prio,
         destination := dest, deleterecord := del, state := sta }

/-- `NcAPI.infoDnsZone` (nc_api.py lines 114–131). -/
def infoDnsZoneF (fuel : Nat) (st : NcState) (w : World)
    (domainname : String) : Except PyExc DNSZone × NcState × World :=
  let r := sendF fuel st w
    (nc_request st "infoDnsZone" [("domainname", .atom (.aStr domainname))])
  (r.1.bind (parseDnsZone domainname), r.2.1, r.2.2)

/-- `NcAPI.infoDnsRecords` (nc_api.py lines 133–154). -/
def infoDnsRecordsF (fuel : Nat) (st : NcState) (w : World)
    (domainname : String) : Except PyExc DNSRecordSet × NcState × World :=
  let r := sendF fuel st w
    (nc_request st "infoDnsRecords"
      [("domainname", .atom (.aStr domainname))])
  (r.1.bind (fun data => do
      let rs ← pyGetRecords data
      let recs ← rs.mapM parseDnsRecord
      pure (⟨recs⟩ : DNSRecordSet)),
   r.2.1, r.2.2)

/-- `NcAPI.updateDnsZone` (nc_api.py lines 156–163). -/
def updateDnsZoneF (fuel : Nat) (st : NcState) (w : World) (zone : DNSZone) :
    Except PyExc Unit × NcState × World :=
  let r := sendF fuel st w
    (nc_request st "updateDnsZone"
      [("domainname", .atom (.aStr zone.name)), ("dnszone", zone.json)])
  (r.1.map (fun _ => ()), r.2.1, r.2.2)

/-- `NcAPI.updateDnsRecords` (nc_api.py lines 165–173). -/
def updateDnsRecordsF (fuel : Nat) (st : NcState) (w : World)
    (zone : DNSZone) (recordset : DNSRecordSet) :
    Except PyExc Unit × NcState × World :=
  let r := sendF fuel st w
    (nc_request st "updateDnsRecords"
      [("domainname", .atom (.aStr zone.name)),
       ("dnsrecordset", recordset.json)])
  (r.1.map (fun _ => ()), r.2.1, r.2.2)

/-! ## `src/dyndns.py`, the ttl slice -/

/-- Result of the per-domain ttl step of the `dyndns` command. -/
structure TtlStep where
  changed_ttl : Bool
  zone : DNSZone
  zoneCalls : List DNSZone
deriving DecidableEq, Repr

/-- The ttl slice of `dyndns` (dyndns.py lines 141–155) for one domain:
`changed_ttl = "ttl" in settings and settings.get("ttl") != zone.ttl`;
when set, the zone's ttl is overwritten with the desired value; in
`update` mode `api.updateDnsZone(zone)` is called exactly when
`(changed_ttl or changed) and changed_ttl`.  `desiredTtl` is
`settings.get("ttl")` together with the presence of the `"ttl"` key;
`zoneCalls` lists the zones passed to `api.updateDnsZone`. -/
def dyndnsTtlStep (desiredTtl : Option JAtom) (zone : DNSZone)
    (update changed : Bool) : TtlStep :=
  let changed_ttl := match desiredTtl with
    | none => false
    | some v => v != zone.ttl
  let zone := if changed_ttl then
                { zone with ttl := match desiredTtl with
                                   | some v => v
                                   | none => zone.ttl }
              else zone
  let zoneCalls := if update && (changed_ttl || changed) && changed_ttl then
                     [zone]
                   else []
  { changed_ttl := changed_ttl, zone := zone, zoneCalls := zoneCalls }

/-! ## Concrete fixtures used by counterexamples and witnesses -/

/-- An authenticated `NcAPI` state (after a successful login). -/
def stAuth : NcState :=
  { api_url := "u", api_key := "k", api_password := "p", customer_id := "c",
    session_open := true, session_id := some "sid" }

/-- A fresh, unauthenticated `NcAPI` state. -/
def stFresh : NcState :=
  { api_url := "u", api_key := "k", api_password := "p", customer_id := "c" }

/-- A non-success response carrying message `m`. -/
def errResp (m : String) : NcResponse :=
  { status := "error", longmessage := m, responsedata := .dict [] }

/-- A success response with an empty responsedata dictionary. -/
def okResp : NcResponse :=
  { status := "success", longmessage := "", responsedata := .dict [] }

/-- Remote script: the triggering action fails with message `orig`, the
teardown logout fails with message `logoutfail`, the logout retried by the
nested teardown succeeds. -/
def wMask : World :=
  { responses := fun n => if n == 0 then errResp "orig"
                          else if n == 1 then errResp "logoutfail" else okResp }

/-- Remote script: the triggering action fails with message `boom`, every
later call (the teardown logout) succeeds. -/
def wTear : World :=
  { responses := fun n => if n == 0 then errResp "boom" else okResp }

/-- Remote script: every call fails. -/
def wFail : World := { responses := fun _ => errResp "denied" }

/-- Remote script: every call succeeds. -/
def wOk : World := { responses := fun _ => okResp }

/-- The `infoDnsZone` request an authenticated session posts first in the
teardown scenarios. -/
def payAct : Payload :=
  nc_request stAuth "infoDnsZone" [("domainname", .atom (.aStr "example.org"))]

/-- The session state left behind by the forced teardown of `wTear`
(triggering action failed, best-effort logout succeeded). -/
def stPost : NcState := (sendF 10 stAuth wTear payAct).2.1

/-- A concrete current zone with ttl 3600. -/
def z3600 : DNSZone :=
  { name := "example.org", ttl := .aInt 3600, serial := .aStr "2024010101",
    refresh := 28800, retry := 7200, expire := 1209600,
    dnssecstatus := .aBool false }

/-! ## Theorems -/

/-! ### `DNSRecord.update` basics -/

/-- Closed form of `DNSRecord.update`: the record always ends up carrying
`record`'s `destination` and `type`, and the returned flag is exactly
`needs_update`. -/
theorem update_spec (a b : DNSRecord) :
    a.update b =
      ({ a with destination := b.destination, type := b.type },
       a.needs_update b) := by
  rcases a with ⟨ah, ad, aty, ai, ap, adel, ast⟩
  by_cases h1 : ad = b.destination <;> by_cases h2 : aty = b.type <;>
    simp [DNSRecord.update, DNSRecord.needs_update, h1, h2]

/-- `update` never touches the hostname. -/
theorem update_hostname (a b : DNSRecord) :
    (a.update b).1.hostname = a.hostname := by
  simp [update_spec]

/-- C9: for all records `a` and `b`, `a.update(b)` returns `true` iff
`a.needs_update(b)` held before the call; afterwards `a.needs_update(b)`
is `false` (`a`'s `destination` and `type` equal `b`'s), and `a`'s
`hostname`, `id`, `priority`, `deleterecord` and `state` are unchanged. -/
theorem update_returns_needs_update_and_clears_it (a b : DNSRecord) :
    (a.update b).2 = a.needs_update b ∧
    (a.update b).1.needs_update b = false ∧
    (a.update b).1.destination = b.destination ∧
    (a.update b).1.type = b.type ∧
    (a.update b).1.hostname = a.hostname ∧
    (a.update b).1.id = a.id ∧
    (a.update b).1.priority = a.priority ∧
    (a.update b).1.deleterecord = a.deleterecord ∧
    (a.update b).1.state = a.state := by
  simp [update_spec, DNSRecord.needs_update]

/-! ### `updateFirstWhere` lemmas -/

/-- A string cannot be both `"A"` and `"AAAA"`. -/
theorem not_A_and_AAAA (s t : String) (h : s = t) :
    (s == "A" && t == "AAAA") = false := by
  subst h
  by_cases hA : s = "A" <;> simp [hA]

/-- No match: `updateFirstWhere` returns the list unchanged and `false`. -/
theorem uf_no_match (p : DNSRecord → Bool) (d : DNSRecord)
    (l : List DNSRecord) (h : l.filter p = []) :
    updateFirstWhere p d l = (l, false) := by
  induction l with
  | nil => rfl
  | cons x xs ih =>
    rw [List.filter_cons] at h
    by_cases hx : p x
    · simp [hx] at h
    · simp only [hx] at h
      simp [updateFirstWhere, hx, ih h]

/-- When the match lies in the first part of an appended list, the second
part is untouched. -/
theorem uf_append (p : DNSRecord → Bool) (d : DNSRecord)
    (l l2 : List DNSRecord) (h : l.any p = true) :
    updateFirstWhere p d (l ++ l2) =
      ((updateFirstWhere p d l).1 ++ l2, (updateFirstWhere p d l).2) := by
  induction l with
  | nil => simp at h
  | cons x xs ih =>
    by_cases hx : p x
    · simp [updateFirstWhere, hx]
    · simp only [List.any_cons, hx, Bool.false_or] at h
      simp [updateFirstWhere, hx, ih h]

/-- `updateFirstWhere` only depends on the predicate's values on the
list's members. -/
theorem uf_congr (p q : DNSRecord → Bool) (d : DNSRecord)
    (l : List DNSRecord) (h : ∀ r ∈ l, p r = q r) :
    updateFirstWhere p d l = updateFirstWhere q d l := by
  induction l with
  | nil => rfl
  | cons x xs ih =>
    have hx : p x = q x := h x (List.mem_cons_self x xs)
    have hxs : ∀ r ∈ xs, p r = q r := fun r hr => h r (List.mem_cons_of_mem x hr)
    by_cases hq : q x
    · simp [updateFirstWhere, hx, hq]
    · simp only [updateFirstWhere, hx, hq]
      simp [ih hxs]

/-- Exactly one match: `updateFirstWhere` updates it in place; its filter
image under the predicate is the updated record (provided updating keeps
the predicate true) and the returned flag is the record's own
`update` flag. -/
theorem uf_single_match (p : DNSRecord → Bool) (d : DNSRecord)
    (l : List DNSRecord) (a : DNSRecord) (h : l.filter p = [a])
    (hp : p ((a.update d).1) = true) :
    (updateFirstWhere p d l).1.filter p = [(a.update d).1] ∧
    (updateFirstWhere p d l).2 = (a.update d).2 := by
  induction l with
  | nil => simp at h
  | cons x xs ih =>
    rw [List.filter_cons] at h
    by_cases hx : p x
    · simp only [hx, if_pos, if_true] at h
      have hxa : x = a := by
        have := List.head_eq_of_cons_eq h
        exact this
      have hxs : xs.filter p = [] := List.tail_eq_of_cons_eq h
      subst hxa
      simp [updateFirstWhere, hx, List.filter_cons, hp, hxs]
    · simp only [hx] at h
      rcases ih h with ⟨ih1, ih2⟩
      simp [updateFirstWhere, hx, List.filter_cons, ih1, ih2]

/-- Identity update on the unique match: the list is returned unchanged
with flag `false`. -/
theorem uf_single_match_id (p : DNSRecord → Bool) (d : DNSRecord)
    (l : List DNSRecord) (a : DNSRecord) (h : l.filter p = [a])
    (hid : a.update d = (a, false)) :
    updateFirstWhere p d l = (l, false) := by
  induction l with
  | nil => simp at h
  | cons x xs ih =>
    rw [List.filter_cons] at h
    by_cases hx : p x
    · simp only [hx, if_true] at h
      have hxa : x = a := List.head_eq_of_cons_eq h
      subst hxa
      simp [updateFirstWhere, hx, hid]
    · simp only [hx] at h
      simp [updateFirstWhere, hx, ih h]

/-- Frame: records failing a predicate `q` that is disjoint from the
update predicate `p` (and invariant under updating) are untouched,
in content and in relative order. -/
theorem uf_frame (p q : DNSRecord → Bool) (d : DNSRecord)
    (l : List DNSRecord)
    (hdisj : ∀ r, p r = true → q r = false)
    (hinv : ∀ r, q ((r.update d).1) = q r) :
    (updateFirstWhere p d l).1.filter q = l.filter q := by
  induction l with
  | nil => rfl
  | cons x xs ih =>
    by_cases hx : p x
    · have hq : q x = false := hdisj x hx
      have hq' : q ((x.update d).1) = false := by rw [hinv]; exact hq
      simp [updateFirstWhere, hx, List.filter_cons, hq, hq']
    · simp [updateFirstWhere, hx, List.filter_cons, ih]

/-- A string cannot be `"A"` and `"AAAA"` at once (prop form). -/
theorem ne_A_AAAA (s : String) : ¬(s = "A" ∧ s = "AAAA") := by
  rintro ⟨h1, h2⟩
  rw [h1] at h2
  exact absurd h2 (by decide)

/-- A string cannot be `"AAAA"` and `"A"` at once (prop form). -/
theorem ne_AAAA_A (s : String) : ¬(s = "AAAA" ∧ s = "A") := by
  rintro ⟨h1, h2⟩
  rw [h1] at h2
  exact absurd h2 (by decide)

/-- C8: when exactly one existing record matches the desired record's
hostname and that record already has the desired `destination` and `type`,
the merge returns `changed = false` and leaves the record set untouched
(in particular its record count is unchanged). -/
theorem add_identical_single_match_noop (rs : DNSRecordSet) (d e : DNSRecord)
    (hm : rs.get_by_hostname d.hostname = [e])
    (hd : e.destination = d.destination) (ht : e.type = d.type) :
    rs.add d = .ok rs false := by
  have hm' : rs.dnsrecords.filter (fun r => r.hostname == d.hostname) = [e] :=
    hm
  have hid : e.update d = (e, false) := by
    rw [update_spec]
    rcases e with ⟨eh, ed, ety, ei, ep, edel, est⟩
    simp only at hd ht
    simp [← hd, ← ht, DNSRecord.needs_update]
  have huf := uf_single_match_id (fun r => r.hostname == d.hostname) d
    rs.dnsrecords e hm' hid
  simp only [DNSRecordSet.add, DNSRecordSet.get_by_hostname]
  rw [hm']
  simp [huf, ht, ne_A_AAAA d.type, ne_AAAA_A d.type]

/-- Witness for C8 at a concrete input. -/
theorem add_identical_single_match_noop_witness :
    DNSRecordSet.add ⟨[⟨"www", "1.1.1.1", "A", some 1, 0, false, some "yes"⟩]⟩
        ⟨"www", "1.1.1.1", "A", none, 0, false, none⟩ =
      .ok ⟨[⟨"www", "1.1.1.1", "A", some 1, 0, false, some "yes"⟩]⟩ false :=
  add_identical_single_match_noop _
    ⟨"www", "1.1.1.1", "A", none, 0, false, none⟩
    ⟨"www", "1.1.1.1", "A", some 1, 0, false, some "yes"⟩
    (by decide) (by decide) (by decide)

/-- C1 (evaluation at the failing input): on existing A+AAAA records for
`host`, merging a desired CNAME raises `AttributeError` — the code calls
the nonexistent `list.delete` — after updating the first match in place;
the second record is not removed (two records remain) and no
`changed = true` is returned. -/
theorem add_collapse_branch_raises_attribute_error :
    DNSRecordSet.add
        ⟨[⟨"host", "1.2.3.4", "A", some 1, 0, false, some "yes"⟩,
          ⟨"host", "::1", "AAAA", some 2, 0, false, some "yes"⟩]⟩
        ⟨"host", "target.example.", "CNAME", none, 0, false, none⟩ =
      .exc "AttributeError"
        ⟨[⟨"host", "target.example.", "CNAME", some 1, 0, false, some "yes"⟩,
          ⟨"host", "::1", "AAAA", some 2, 0, false, some "yes"⟩]⟩ ∧
    (DNSRecordSet.add
        ⟨[⟨"host", "1.2.3.4", "A", some 1, 0, false, some "yes"⟩,
          ⟨"host", "::1", "AAAA", some 2, 0, false, some "yes"⟩]⟩
        ⟨"host", "target.example.", "CNAME", none, 0, false,
         none⟩).setOf.dnsrecords.length = 2 := by
  constructor <;> decide

/-- C10 (frame): merging a desired record `d` leaves every record whose
hostname differs from `d.hostname` unchanged and in its original relative
order — in every branch, including the exception-raising ones. -/
theorem add_frame_other_hostnames (rs : DNSRecordSet) (d : DNSRecord) :
    (rs.add d).setOf.dnsrecords.filter (fun r => r.hostname != d.hostname) =
      rs.dnsrecords.filter (fun r => r.hostname != d.hostname) := by
  have hdisj1 : ∀ r : DNSRecord, (r.hostname == d.hostname) = true →
      (r.hostname != d.hostname) = false := by
    intro r h
    simp_all
  have hdisj2 : ∀ r : DNSRecord,
      (r.hostname == d.hostname && r.type == d.type) = true →
      (r.hostname != d.hostname) = false := by
    intro r h
    simp_all
  have hinv : ∀ r : DNSRecord,
      (((r.update d).1.hostname != d.hostname)) = (r.hostname != d.hostname) := by
    intro r
    rw [update_hostname]
  simp only [DNSRecordSet.add]
  split
  · simp [AddResult.setOf, List.filter_append]
  · split
    · split
      · simp only [AddResult.setOf]
        exact uf_frame _ _ d rs.dnsrecords hdisj1 hinv
      · split
        · simp [AddResult.setOf]
        · simp only [AddResult.setOf]
          exact uf_frame _ _ d rs.dnsrecords hdisj2 hinv
    · split
      · simp [AddResult.setOf, List.filter_append]
      · simp only [AddResult.setOf]
        exact uf_frame _ _ d rs.dnsrecords hdisj1 hinv

/-- C5: if the sole existing record for a hostname has type A, merging a
desired AAAA record for that hostname appends it (changed = true) and the
hostname then owns exactly the records [A, AAAA]; moreover merging a
desired A and a desired AAAA record for that hostname in either order
(A then AAAA, or AAAA then A) produces the same final record set, whose
records for the hostname are the updated A record followed by the
appended AAAA record. -/
theorem add_dual_stack_append_and_comm (rs : DNSRecordSet)
    (a dA dAAAA : DNSRecord)
    (hm : rs.get_by_hostname dAAAA.hostname = [a])
    (haty : a.type = "A")
    (hA : dA.hostname = dAAAA.hostname) (hAty : dA.type = "A")
    (hAAAAty : dAAAA.type = "AAAA") :
    rs.add dAAAA = .ok ⟨rs.dnsrecords ++ [dAAAA]⟩ true ∧
    (⟨rs.dnsrecords ++ [dAAAA]⟩ : DNSRecordSet).get_by_hostname
        dAAAA.hostname = [a, dAAAA] ∧
    (rs.add dA).isOk = true ∧
    ((rs.add dA).setOf.add dAAAA).isOk = true ∧
    ((rs.add dAAAA).setOf.add dA).isOk = true ∧
    ((rs.add dA).setOf.add dAAAA).setOf = ((rs.add dAAAA).setOf.add dA).setOf ∧
    ((rs.add dA).setOf.add dAAAA).setOf.get_by_hostname dAAAA.hostname =
      [(a.update dA).1, dAAAA] := by
  have hm' : rs.dnsrecords.filter (fun r => r.hostname == dAAAA.hostname)
      = [a] := hm
  have ham : a ∈ rs.dnsrecords.filter (fun r => r.hostname == dAAAA.hostname) := by
    rw [hm']
    exact List.mem_singleton.mpr rfl
  have haL : a ∈ rs.dnsrecords := (List.mem_filter.mp ham).1
  have pa : (a.hostname == dAAAA.hostname) = true := (List.mem_filter.mp ham).2
  -- step: merging dAAAA appends
  have stepB : rs.add dAAAA = .ok ⟨rs.dnsrecords ++ [dAAAA]⟩ true := by
    simp only [DNSRecordSet.add, DNSRecordSet.get_by_hostname]
    rw [hm']
    simp [haty, hAAAAty]
  -- step: merging dA updates the sole match in place
  have stepA : rs.add dA =
      .ok ⟨(updateFirstWhere (fun r => r.hostname == dAAAA.hostname) dA
              rs.dnsrecords).1⟩
          (updateFirstWhere (fun r => r.hostname == dAAAA.hostname) dA
              rs.dnsrecords).2 := by
    simp only [DNSRecordSet.add, DNSRecordSet.get_by_hostname, hA]
    rw [hm']
    simp [haty, hAty]
  -- the updated record still matches the hostname and has type A
  have hp : (((a.update dA).1.hostname == dAAAA.hostname)) = true := by
    rw [update_hostname]
    exact pa
  have hufm := uf_single_match (fun r => r.hostname == dAAAA.hostname) dA
    rs.dnsrecords a hm' hp
  have ha'ty : (a.update dA).1.type = "A" := by
    rw [update_spec]
    exact hAty
  -- order 1, second step: appending dAAAA to the updated set
  have step12 : ((⟨(updateFirstWhere (fun r => r.hostname == dAAAA.hostname) dA
        rs.dnsrecords).1⟩ : DNSRecordSet).add dAAAA) =
      .ok ⟨(updateFirstWhere (fun r => r.hostname == dAAAA.hostname) dA
              rs.dnsrecords).1 ++ [dAAAA]⟩ true := by
    simp only [DNSRecordSet.add, DNSRecordSet.get_by_hostname]
    rw [hufm.1]
    simp [ha'ty, hAAAAty]
  -- order 2, second step: updating the A record inside the two-element set
  have hpa2 : ((a.hostname == dAAAA.hostname) && (a.type == dA.type)) = true := by
    simp [pa, haty, hAty]
  have hany : rs.dnsrecords.any
      (fun r => (r.hostname == dAAAA.hostname) && (r.type == dA.type)) = true :=
    List.any_eq_true.mpr ⟨a, haL, hpa2⟩
  have hcongr : updateFirstWhere
      (fun r => (r.hostname == dAAAA.hostname) && (r.type == dA.type)) dA
      rs.dnsrecords =
      updateFirstWhere (fun r => r.hostname == dAAAA.hostname) dA
        rs.dnsrecords := by
    apply uf_congr
    intro r hr
    by_cases hpr : (r.hostname == dAAAA.hostname) = true
    · have hrf : r ∈ rs.dnsrecords.filter
          (fun r => r.hostname == dAAAA.hostname) :=
        List.mem_filter.mpr ⟨hr, hpr⟩
      rw [hm'] at hrf
      have hra : r = a := List.mem_singleton.mp hrf
      subst hra
      rw [hpa2, pa]
    · have hx : (r.hostname == dAAAA.hostname) = false :=
        Bool.eq_false_iff.mpr hpr
      rw [hx, Bool.false_and]
  have happ := uf_append
    (fun r => (r.hostname == dAAAA.hostname) && (r.type == dA.type)) dA
    rs.dnsrecords [dAAAA] hany
  -- order 2, second step
  have step22 : ((⟨rs.dnsrecords ++ [dAAAA]⟩ : DNSRecordSet).add dA) =
      .ok ⟨(updateFirstWhere (fun r => r.hostname == dAAAA.hostname) dA
              rs.dnsrecords).1 ++ [dAAAA]⟩
          (updateFirstWhere (fun r => r.hostname == dAAAA.hostname) dA
              rs.dnsrecords).2 := by
    simp only [DNSRecordSet.add, DNSRecordSet.get_by_hostname, hA]
    rw [List.filter_append, hm']
    simp only [List.filter_cons, List.filter_nil, beq_self_eq_true, if_true,
      List.cons_append, List.nil_append]
    -- same_hosts = [a, dAAAA], so the two-match A/AAAA branch runs
    rw [hAty] at happ hcongr
    simp [hAty, haty, hAAAAty, happ, hcongr]
  refine ⟨stepB, ?_, ?_, ?_, ?_, ?_, ?_⟩
  · simp [DNSRecordSet.get_by_hostname, List.filter_append, hm', pa]
  · rw [stepA]
    rfl
  · rw [stepA]
    simp only [AddResult.setOf]
    rw [step12]
    rfl
  · rw [stepB]
    simp only [AddResult.setOf]
    rw [step22]
    rfl
  · rw [stepA, stepB]
    simp only [AddResult.setOf]
    rw [step12, step22]
  · rw [stepA]
    simp only [AddResult.setOf]
    rw [step12]
    simp only [AddResult.setOf, DNSRecordSet.get_by_hostname]
    rw [List.filter_append, hufm.1]
    simp [pa]

/-- Witness for C5 at a concrete input. -/
theorem add_dual_stack_append_and_comm_witness :
    (((⟨[⟨"host", "9.9.9.9", "A", some 7, 0, false, some "yes"⟩,
         ⟨"other", "1.1.1.1", "A", none, 0, false, none⟩]⟩ :
        DNSRecordSet).add
          ⟨"host", "2.2.2.2", "A", none, 0, false, none⟩).setOf.add
            ⟨"host", "::2", "AAAA", none, 0, false, none⟩).setOf =
      (((⟨[⟨"host", "9.9.9.9", "A", some 7, 0, false, some "yes"⟩,
           ⟨"other", "1.1.1.1", "A", none, 0, false, none⟩]⟩ :
         DNSRecordSet).add
           ⟨"host", "::2", "AAAA", none, 0, false, none⟩).setOf.add
             ⟨"host", "2.2.2.2", "A", none, 0, false, none⟩).setOf :=
  (add_dual_stack_append_and_comm
      ⟨[⟨"host", "9.9.9.9", "A", some 7, 0, false, some "yes"⟩,
        ⟨"other", "1.1.1.1", "A", none, 0, false, none⟩]⟩
      ⟨"host", "9.9.9.9", "A", some 7, 0, false, some "yes"⟩
      ⟨"host", "2.2.2.2", "A", none, 0, false, none⟩
      ⟨"host", "::2", "AAAA", none, 0, false, none⟩
      (by decide) (by decide) (by decide) (by decide)
      (by decide)).2.2.2.2.2.1

/-- C6: the ttl-changed flag equals "a desired ttl is present AND differs
from the current zone ttl"; when the desired ttl equals the zone's, the
flag is false and no zone update call is issued even in update mode; when
it differs, the flag is true and in update mode exactly one
`updateDnsZone` call is issued, carrying the new ttl value. -/
theorem dyndns_ttl_flag_and_calls (dtl : Option JAtom) (zone : DNSZone)
    (update changed : Bool) (v : JAtom) :
    ((dyndnsTtlStep dtl zone update changed).changed_ttl
        = dtl.any (fun t => t != zone.ttl)) ∧
    (dtl = some zone.ttl →
      (dyndnsTtlStep dtl zone update changed).changed_ttl = false ∧
      (dyndnsTtlStep dtl zone update changed).zoneCalls = []) ∧
    (dtl = some v → v ≠ zone.ttl →
      (dyndnsTtlStep dtl zone true changed).changed_ttl = true ∧
      (dyndnsTtlStep dtl zone true changed).zoneCalls =
        [{ zone with ttl := v }]) := by
  refine ⟨?_, ?_, ?_⟩
  · cases dtl with
    | none => simp [dyndnsTtlStep, Option.any]
    | some t => simp [dyndnsTtlStep, Option.any]
  · rintro rfl
    simp [dyndnsTtlStep]
  · rintro rfl hne
    simp [dyndnsTtlStep, bne_iff_ne, hne]

/-- Witness for C6: the spec's 3600/3600 and 3600/7200 scenarios. -/
theorem dyndns_ttl_flag_and_calls_witness :
    ((dyndnsTtlStep (some (.aInt 3600)) z3600 true true).changed_ttl = false ∧
     (dyndnsTtlStep (some (.aInt 3600)) z3600 true true).zoneCalls = []) ∧
    ((dyndnsTtlStep (some (.aInt 7200)) z3600 true false).changed_ttl = true ∧
     (dyndnsTtlStep (some (.aInt 7200)) z3600 true false).zoneCalls =
       [{ z3600 with ttl := .aInt 7200 }]) :=
  ⟨(dyndns_ttl_flag_and_calls (some (.aInt 3600)) z3600 true true
      (.aInt 3600)).2.1 rfl,
   (dyndns_ttl_flag_and_calls (some (.aInt 7200)) z3600 true false
      (.aInt 7200)).2.2 rfl (by decide)⟩

/-! ### Dictionary lemmas for `nc_request` -/

/-- The key-overwriting map of `dictInsert` preserves the key set. -/
theorem any_key_map_insert (d : List (String × JVal)) (k k' : String)
    (v : JVal) :
    ((d.map (fun p => if p.1 == k then (k, v) else p)).any
        (fun p => p.1 == k'))
      = d.any (fun p => p.1 == k') := by
  induction d with
  | nil => rfl
  | cons x xs ih =>
    by_cases hx : (x.1 == k) = true
    · have hx1 : x.1 = k := by simpa using hx
      simp only [List.map_cons, List.any_cons, if_pos hx]
      rw [ih, hx1]
    · simp only [List.map_cons, List.any_cons, if_neg hx]
      rw [ih]

/-- Key presence after a `dictInsert`. -/
theorem hasKeyD_dictInsert (d : List (String × JVal)) (k k' : String)
    (v : JVal) :
    hasKeyD (dictInsert d k v) k' = (hasKeyD d k' || (k == k')) := by
  unfold dictInsert hasKeyD
  split
  · rename_i hin
    rw [any_key_map_insert]
    by_cases hkk : (k == k') = true
    · have hk : k = k' := by simpa using hkk
      subst hk
      simp [hin, hkk]
    · have hkk' : (k == k') = false := by simpa using hkk
      simp [hkk']
  · simp [List.any_append]

/-- Key presence after a `dictMerge`. -/
theorem hasKeyD_dictMerge (a b : List (String × JVal)) (k : String) :
    hasKeyD (dictMerge a b) k = (hasKeyD a k || hasKeyD b k) := by
  induction b generalizing a with
  | nil => simp [dictMerge, hasKeyD]
  | cons x xs ih =>
    show hasKeyD (dictMerge (dictInsert a x.1 x.2) xs) k = _
    rw [ih, hasKeyD_dictInsert]
    show _ = (hasKeyD a k || ((x.1 == k) || hasKeyD xs k))
    by_cases h1 : (x.1 == k) = true <;> simp [h1]

/-- The key-overwriting map of `dictInsert` does not affect a different
key's `find?`. -/
theorem find_key_map_insert (d : List (String × JVal)) (k k' : String)
    (v : JVal) (h : (k == k') = false) :
    List.find? (fun p => p.1 == k')
        (d.map (fun p => if p.1 == k then (k, v) else p))
      = List.find? (fun p => p.1 == k') d := by
  induction d with
  | nil => rfl
  | cons x xs ih =>
    by_cases hx : (x.1 == k) = true
    · have hx1 : x.1 = k := by simpa using hx
      have hxk' : (x.1 == k') = false := by rw [hx1]; exact h
      rw [List.map_cons, if_pos hx]
      simp only [List.find?_cons, hxk', h, cond_false]
      exact ih
    · rw [List.map_cons, if_neg hx]
      by_cases hx2 : (x.1 == k') = true
      · simp only [List.find?_cons, hx2, cond_true]
      · have hx2' : (x.1 == k') = false := by simpa using hx2
        simp only [List.find?_cons, hx2', cond_false]
        exact ih

/-- On the overwritten key itself, the map of `dictInsert` finds `(k, v)`
as long as the key was present. -/
theorem find_key_map_insert_self (d : List (String × JVal)) (k : String)
    (v : JVal) (hin : d.any (fun p => p.1 == k) = true) :
    List.find? (fun p => p.1 == k)
        (d.map (fun p => if p.1 == k then (k, v) else p))
      = some (k, v) := by
  induction d with
  | nil => simp at hin
  | cons x xs ih =>
    by_cases hx : (x.1 == k) = true
    · rw [List.map_cons, if_pos hx]
      simp only [List.find?_cons, beq_self_eq_true, cond_true]
    · have hx' : (x.1 == k) = false := by simpa using hx
      simp only [List.any_cons, hx', Bool.false_or] at hin
      rw [List.map_cons, if_neg hx]
      simp only [List.find?_cons, hx', cond_false]
      exact ih hin

/-- `dictInsert` with a different key does not affect a lookup. -/
theorem lookupD_dictInsert_ne (d : List (String × JVal)) (k k' : String)
    (v : JVal) (h : (k == k') = false) :
    lookupD (dictInsert d k v) k' = lookupD d k' := by
  unfold dictInsert lookupD
  split
  · rw [find_key_map_insert _ _ _ _ h]
  · rw [List.find?_append]
    have hnone : List.find? (fun p : String × JVal => p.1 == k') [(k, v)]
        = none := by
      simp only [List.find?_cons, List.find?_nil, h, cond_false]
    rw [hnone]
    cases List.find? (fun p => p.1 == k') d <;> simp

/-- `dictInsert` then lookup of the same key. -/
theorem lookupD_dictInsert_self (d : List (String × JVal)) (k : String)
    (v : JVal) :
    lookupD (dictInsert d k v) k = some v := by
  unfold dictInsert lookupD
  split
  · rename_i hin
    rw [find_key_map_insert_self _ _ _ hin]
    rfl
  · rw [List.find?_append]
    rename_i hout
    have hnone : List.find? (fun p : String × JVal => p.1 == k) d = none := by
      rw [List.find?_eq_none]
      intro p hp hc
      exact absurd (List.any_eq_true.mpr ⟨p, hp, hc⟩) hout
    rw [hnone]
    simp only [List.find?_cons, beq_self_eq_true, cond_true]
    rfl

/-- Merging entries without key `k` does not affect the lookup of `k`. -/
theorem lookupD_dictMerge_no_key (a b : List (String × JVal)) (k : String)
    (h : hasKeyD b k = false) :
    lookupD (dictMerge a b) k = lookupD a k := by
  induction b generalizing a with
  | nil => rfl
  | cons x xs ih =>
    simp only [hasKeyD, List.any_cons, Bool.or_eq_false_iff] at h
    show lookupD (dictMerge (dictInsert a x.1 x.2) xs) k = _
    rw [ih _ h.2, lookupD_dictInsert_ne _ _ _ _ h.1]

/-- The key-overwriting map of `dictInsert` does not affect a different
key's filter. -/
theorem filter_key_map_insert (d : List (String × JVal)) (k k' : String)
    (v : JVal) (h : (k == k') = false) :
    (d.map (fun p => if p.1 == k then (k, v) else p)).filter
        (fun p => p.1 == k')
      = d.filter (fun p => p.1 == k') := by
  induction d with
  | nil => rfl
  | cons x xs ih =>
    by_cases hx : (x.1 == k) = true
    · have hx1 : x.1 = k := by simpa using hx
      have hxk' : (x.1 == k') = false := by rw [hx1]; exact h
      rw [List.map_cons, if_pos hx]
      simp only [List.filter_cons, hxk', h]
      exact ih
    · rw [List.map_cons, if_neg hx]
      simp only [List.filter_cons]
      by_cases hx2 : (x.1 == k') = true
      · simp only [hx2, if_true, ih]
      · have hx2' : (x.1 == k') = false := by simpa using hx2
        simp only [hx2', Bool.false_eq_true, if_false, ih]

/-- A `dictInsert` under a different key does not affect a key's filter. -/
theorem filter_key_dictInsert_ne (d : List (String × JVal)) (k k' : String)
    (v : JVal) (h : (k == k') = false) :
    (dictInsert d k v).filter (fun p => p.1 == k')
      = d.filter (fun p => p.1 == k') := by
  unfold dictInsert
  split
  · exact filter_key_map_insert _ _ _ _ h
  · rw [List.filter_append]
    simp [List.filter_cons, h]

/-- Merging entries without key `k` does not affect the filter of `k`. -/
theorem filter_key_dictMerge_no_key (a b : List (String × JVal)) (k : String)
    (h : hasKeyD b k = false) :
    (dictMerge a b).filter (fun p => p.1 == k)
      = a.filter (fun p => p.1 == k) := by
  induction b generalizing a with
  | nil => rfl
  | cons x xs ih =>
    simp only [hasKeyD, List.any_cons, Bool.or_eq_false_iff] at h
    show (dictMerge (dictInsert a x.1 x.2) xs).filter _ = _
    rw [ih _ h.2, filter_key_dictInsert_ne _ _ _ _ h.1]

/-- When the merged-in entries contain key `k` exactly once, with value
`v`, the merged dictionary's lookup of `k` yields `v`. -/
theorem lookupD_dictMerge_single (a b : List (String × JVal)) (k : String)
    (v : JVal) (h : b.filter (fun p => p.1 == k) = [(k, v)]) :
    lookupD (dictMerge a b) k = some v := by
  induction b generalizing a with
  | nil => simp at h
  | cons x xs ih =>
    by_cases hx : (x.1 == k) = true
    · rw [List.filter_cons, if_pos hx] at h
      have hx1 : x = (k, v) := List.head_eq_of_cons_eq h
      have hxs : xs.filter (fun p => p.1 == k) = [] :=
        List.tail_eq_of_cons_eq h
      have hnk : hasKeyD xs k = false := by
        unfold hasKeyD
        rw [List.any_eq_false]
        intro p hp
        intro hc
        have : p ∈ xs.filter (fun p => p.1 == k) :=
          List.mem_filter.mpr ⟨hp, hc⟩
        rw [hxs] at this
        exact absurd this (List.not_mem_nil p)
      show lookupD (dictMerge (dictInsert a x.1 x.2) xs) k = some v
      rw [lookupD_dictMerge_no_key _ _ _ hnk, hx1]
      exact lookupD_dictInsert_self a k v
    · have hx' : (x.1 == k) = false := by simpa using hx
      rw [List.filter_cons, if_neg hx] at h
      show lookupD (dictMerge (dictInsert a x.1 x.2) xs) k = some v
      exact ih _ h

/-- C7 (amended): for every action and every parameter dictionary that
does not itself contain the key `apisessionid`, the payload built by
`nc_request` has action `action` and a parameter dictionary carrying
`customernumber` and `apikey`; the stored session identifier is present
under `apisessionid` exactly when the action is not `"login"`: the login
payload carries no `apisessionid` key, and every other action's payload
maps `apisessionid` to the stored identifier. -/
theorem nc_request_payload_shape (st : NcState) (action : String)
    (ps : List (String × JVal))
    (hnk : hasKeyD ps "apisessionid" = false) :
    (nc_request st action ps).action = action ∧
    hasKeyD (nc_request st action ps).param "customernumber" = true ∧
    hasKeyD (nc_request st action ps).param "apikey" = true ∧
    (action = "login" →
      hasKeyD (nc_request st action ps).param "apisessionid" = false) ∧
    (action ≠ "login" →
      lookupD (nc_request st action ps).param "apisessionid"
        = some (sidVal st.session_id)) := by
  refine ⟨rfl, ?_, ?_, ?_, ?_⟩
  · unfold nc_request
    split <;>
    · rw [hasKeyD_dictMerge]
      simp [hasKeyD]
  · unfold nc_request
    split <;>
    · rw [hasKeyD_dictMerge]
      simp [hasKeyD]
  · intro hlogin
    subst hlogin
    unfold nc_request
    rw [if_neg (by simp)]
    rw [hasKeyD_dictMerge, hnk]
    simp [hasKeyD]
  · intro hnl
    unfold nc_request
    rw [if_pos (by simpa using hnl)]
    apply lookupD_dictMerge_single
    rw [filter_key_dictMerge_no_key _ _ _ hnk]
    simp [List.filter_cons]

/-- C7 (counterexample to the claim as stated): for the parameter
dictionary `{"apisessionid": "spoof"}` the `login` payload does carry an
`apisessionid` key — caller parameters are merged over the default, so
the claim's "the login payload carries no apisessionid key" fails for
parameter dictionaries that themselves contain that key. -/
theorem nc_request_login_spoofed_session_key :
    hasKeyD (nc_request stFresh "login"
        [("apisessionid", .atom (.aStr "spoof"))]).param "apisessionid"
      = true ∧
    lookupD (nc_request stFresh "login"
        [("apisessionid", .atom (.aStr "spoof"))]).param "apisessionid"
      = some (.atom (.aStr "spoof")) := by
  constructor <;> decide

/-- Witness for C7 at a concrete input. -/
theorem nc_request_payload_shape_witness :
    (nc_request stAuth "infoDnsZone"
        [("domainname", .atom (.aStr "example.org"))]).action
      = "infoDnsZone" ∧
    hasKeyD (nc_request stAuth "infoDnsZone"
        [("domainname", .atom (.aStr "example.org"))]).param "customernumber"
      = true ∧
    lookupD (nc_request stAuth "infoDnsZone"
        [("domainname", .atom (.aStr "example.org"))]).param "apisessionid"
      = some (sidVal stAuth.session_id) := by
  have h := nc_request_payload_shape stAuth "infoDnsZone"
    [("domainname", .atom (.aStr "example.org"))] (by decide)
  exact ⟨h.1, h.2.1, h.2.2.2.2 (by decide)⟩

/-! ### Session-protocol lemmas -/

/-- `"error"` does not lower to `"success"`. -/
theorem pyLower_error_bool : (pyLower "error" == "success") = false := by
  decide

/-- `"success"` lowers to `"success"`. -/
theorem pyLower_success_bool : (pyLower "success" == "success") = true := by
  decide

/-- `__exit__` with no stored session id does not contact the remote. -/
theorem exitF_no_session (fuel : Nat) (st : NcState) (w : World)
    (h : st.session_id = none) :
    exitF (fuel + 1) st w = (.ok (), { st with session_open := false }, w) := by
  simp only [exitF, h]

/-- `_send` in a state with no stored session id posts exactly one
request, whatever the response status is. -/
theorem sendF_sent_no_session (fuel : Nat) (st : NcState) (w : World)
    (p : Payload) (h : st.session_id = none) :
    (sendF (fuel + 2) st w p).2.2.sent = w.sent ++ [p] := by
  simp only [sendF]
  by_cases hc : (pyLower (w.responses w.idx).status == "success") = true
  · simp [hc]
  · have hc' : (pyLower (w.responses w.idx).status == "success") = false := by
      simpa using hc
    rw [exitF_no_session fuel { st with session_open := true }
      { w with idx := w.idx + 1, sent := w.sent ++ [p] } h]
    simp [hc']

/-- C2 (evaluation at the failing input): an authenticated action's
response is non-success (message `orig`), the teardown logout's response
is non-success too (message `logoutfail`), and the retried logout of the
nested teardown succeeds.  The caller receives
`APIException "logoutfail"` — the logout failure masks and replaces the
original error instead of being swallowed. -/
theorem teardown_logout_failure_masks_original_error :
    (infoDnsZoneF 10 stAuth wMask "example.org").1 =
      .error (.apiException "logoutfail") ∧
    (infoDnsZoneF 10 stAuth wMask "example.org").1 ≠
      .error (.apiException "orig") := by
  have h : (infoDnsZoneF 10 stAuth wMask "example.org").1 =
      .error (.apiException "logoutfail") := by
    simp [infoDnsZoneF, sendF, exitF, logoutF, stAuth, wMask, errResp, okResp,
          nc_request, dictMerge, dictInsert, sidVal, pyLower_error_bool,
          pyLower_success_bool, Except.bind]
  refine ⟨h, ?_⟩
  rw [h]
  simp

/-- Against a remote that never reports success, `_send` always raises,
`__exit__` and the teardown recursion never change the stored session
identifier, and the response script is threaded through unchanged. -/
theorem allFail_protocol (fuel : Nat) :
    (∀ st w p, (∀ n, (pyLower ((w : World).responses n).status == "success")
          = false) →
        (∃ e, (sendF fuel st w p).1 = .error e) ∧
        (sendF fuel st w p).2.1.session_id = st.session_id ∧
        (sendF fuel st w p).2.2.responses = w.responses) ∧
    (∀ st w, (∀ n, (pyLower ((w : World).responses n).status == "success")
          = false) →
        (exitF fuel st w).2.1.session_id = st.session_id ∧
        (exitF fuel st w).2.2.responses = w.responses) ∧
    (∀ st w, (∀ n, (pyLower ((w : World).responses n).status == "success")
          = false) →
        (∃ e, (logoutF fuel st w).1 = .error e) ∧
        (logoutF fuel st w).2.1.session_id = st.session_id ∧
        (logoutF fuel st w).2.2.responses = w.responses) := by
  induction fuel with
  | zero =>
    exact ⟨fun st w p hw => ⟨⟨.recursionError, rfl⟩, rfl, rfl⟩,
           fun st w hw => ⟨rfl, rfl⟩,
           fun st w hw => ⟨⟨.recursionError, rfl⟩, rfl, rfl⟩⟩
  | succ n ih =>
    obtain ⟨ihS, ihE, ihL⟩ := ih
    refine ⟨fun st w p hw => ?_, fun st w hw => ?_, fun st w hw => ?_⟩
    · simp only [sendF, hw w.idx, Bool.false_eq_true, if_false]
      have hE := ihE { st with session_open := true }
        { w with idx := w.idx + 1, sent := w.sent ++ [p] } (fun n => hw n)
      rcases hEq : exitF n { st with session_open := true }
          { w with idx := w.idx + 1, sent := w.sent ++ [p] } with ⟨r, st2, w2⟩
      rw [hEq] at hE
      cases r with
      | error e => exact ⟨⟨e, rfl⟩, hE.1, hE.2⟩
      | ok u =>
        exact ⟨⟨.apiException (w.responses w.idx).longmessage, rfl⟩,
               hE.1, hE.2⟩
    · simp only [exitF]
      cases hsid : st.session_id with
      | none => exact ⟨rfl, rfl⟩
      | some s =>
        have hL := ihL st w hw
        rcases hEq : logoutF n st w with ⟨r, st2, w2⟩
        rw [hEq] at hL
        obtain ⟨⟨e, he⟩, hsid2, hresp⟩ := hL
        subst he
        exact ⟨hsid2.trans hsid, hresp⟩
    · simp only [logoutF]
      have hS := ihS st w (nc_request st "logout" []) hw
      rcases hEq : sendF n st w (nc_request st "logout" []) with ⟨r, st2, w2⟩
      rw [hEq] at hS
      obtain ⟨⟨e, he⟩, hsid2, hresp⟩ := hS
      subst he
      exact ⟨⟨e, rfl⟩, hsid2, hresp⟩

/-- C3 (counterexample to the claim as stated): with a remote that keeps
failing, `logout()` escalates an error (here the teardown recursion
exhausts, Python's `RecursionError`) and the stored session identifier is
NOT cleared — `self._session_id = None` only runs after a successful
send. -/
theorem logout_failure_keeps_session_id :
    (logoutF 6 stAuth wFail).1 = .error .recursionError ∧
    (logoutF 6 stAuth wFail).2.1.session_id = some "sid" := by
  constructor <;>
    simp [sendF, exitF, logoutF, stAuth, wFail, errResp, nc_request,
          dictMerge, dictInsert, sidVal, pyLower_error_bool]

/-- C3 (amended): `logout()` sends the `logout` action; when the remote
reports success, the stored session identifier is cleared
(Unauthenticated); when the remote keeps reporting failure, the logout
escalates an error and the stored identifier remains exactly as it
was. -/
theorem logout_clears_session_only_on_success (st : NcState) (w : World)
    (s : String) (fuel : Nat) (_hsid : st.session_id = some s)
    (hok : (pyLower ((w : World).responses w.idx).status == "success")
      = true) :
    (logoutF (fuel + 2) st w).1 = .ok () ∧
    (logoutF (fuel + 2) st w).2.1.session_id = none ∧
    (logoutF (fuel + 2) st w).2.2.sent
      = w.sent ++ [nc_request st "logout" []] ∧
    (∀ st2 w2 fuel2, (st2 : NcState).session_id = some s →
      (∀ n, (pyLower ((w2 : World).responses n).status == "success")
        = false) →
      (∃ e, (logoutF fuel2 st2 w2).1 = .error e) ∧
      (logoutF fuel2 st2 w2).2.1.session_id = some s) := by
  refine ⟨?_, ?_, ?_, ?_⟩
  · simp [logoutF, sendF, hok]
  · simp [logoutF, sendF, hok]
  · simp [logoutF, sendF, hok]
  · intro st2 w2 fuel2 hsid2 hw2
    obtain ⟨⟨e, he⟩, hpre, _⟩ := (allFail_protocol fuel2).2.2 st2 w2 hw2
    exact ⟨⟨e, he⟩, hpre.trans hsid2⟩

/-- Witness for C3 (amended) at a concrete input. -/
theorem logout_clears_session_only_on_success_witness :
    (logoutF 2 stAuth wOk).1 = .ok () ∧
    (logoutF 2 stAuth wOk).2.1.session_id = none := by
  have h := logout_clears_session_only_on_success stAuth wOk "sid" 0
    (by decide) (by decide)
  exact ⟨h.1, h.2.1⟩

/-- C4 (counterexample to the claim as stated): after a forced teardown
(action failed with `boom`, best-effort logout succeeded) the session id
is `None`; a subsequently attempted `infoDnsZone` does NOT fail fast with
a state-precondition error — it posts a network request (the sent trace
is nonempty). -/
theorem post_teardown_action_still_posts :
    (sendF 10 stAuth wTear payAct).1 = .error (.apiException "boom") ∧
    stPost.session_id = none ∧
    (infoDnsZoneF 10 stPost wOk "example.org").2.2.sent ≠ [] := by
  refine ⟨?_, ?_, ?_⟩ <;>
    simp [stPost, payAct, infoDnsZoneF, sendF, exitF, logoutF, stAuth, wTear,
          wOk, errResp, okResp, nc_request, dictMerge, dictInsert, sidVal,
          pyLower_error_bool, pyLower_success_bool, Except.bind]

/-- C4 (amended): a forced teardown whose best-effort logout succeeds
delivers the original API error and leaves the session identifier `None`
(Unauthenticated); but a subsequently attempted authenticated action
(`infoDnsZone`, `infoDnsRecords`, `updateDnsZone`, `updateDnsRecords`)
does not fail fast: the code has no state-precondition check, so each
action issues exactly one network request, whose parameters carry
`apisessionid = None`. -/
theorem post_teardown_actions_still_send (st1 st2 : NcState) (w w2 : World)
    (fuel : Nat) (s d : String) (zone : DNSZone) (rset : DNSRecordSet)
    (p : Payload)
    (hsid : st1.session_id = some s)
    (hfail : (pyLower ((w : World).responses w.idx).status == "success")
      = false)
    (hok : (pyLower ((w : World).responses (w.idx + 1)).status == "success")
      = true)
    (hnone : st2.session_id = none) :
    (sendF (fuel + 4) st1 w p).1
      = .error (.apiException ((w : World).responses w.idx).longmessage) ∧
    (sendF (fuel + 4) st1 w p).2.1.session_id = none ∧
    (infoDnsZoneF (fuel + 2) st2 w2 d).2.2.sent
      = w2.sent ++ [nc_request st2 "infoDnsZone"
          [("domainname", .atom (.aStr d))]] ∧
    (infoDnsRecordsF (fuel + 2) st2 w2 d).2.2.sent
      = w2.sent ++ [nc_request st2 "infoDnsRecords"
          [("domainname", .atom (.aStr d))]] ∧
    (updateDnsZoneF (fuel + 2) st2 w2 zone).2.2.sent
      = w2.sent ++ [nc_request st2 "updateDnsZone"
          [("domainname", .atom (.aStr zone.name)), ("dnszone", zone.json)]] ∧
    (updateDnsRecordsF (fuel + 2) st2 w2 zone rset).2.2.sent
      = w2.sent ++ [nc_request st2 "updateDnsRecords"
          [("domainname", .atom (.aStr zone.name)),
           ("dnsrecordset", rset.json)]] ∧
    lookupD (nc_request st2 "infoDnsZone"
        [("domainname", .atom (.aStr d))]).param "apisessionid"
      = some (.atom .aNone) := by
  refine ⟨?_, ?_, ?_, ?_, ?_, ?_, ?_⟩
  · simp [sendF, exitF, logoutF, hsid, hfail, hok]
  · simp [sendF, exitF, logoutF, hsid, hfail, hok]
  · show (sendF (fuel + 2) st2 w2 _).2.2.sent = _
    exact sendF_sent_no_session fuel st2 w2 _ hnone
  · show (sendF (fuel + 2) st2 w2 _).2.2.sent = _
    exact sendF_sent_no_session fuel st2 w2 _ hnone
  · show (sendF (fuel + 2) st2 w2 _).2.2.sent = _
    exact sendF_sent_no_session fuel st2 w2 _ hnone
  · show (sendF (fuel + 2) st2 w2 _).2.2.sent = _
    exact sendF_sent_no_session fuel st2 w2 _ hnone
  · have hnk : hasKeyD [("domainname", JVal.atom (.aStr d))] "apisessionid"
        = false := by
      simp [hasKeyD]
    unfold nc_request
    rw [if_pos (by decide)]
    apply lookupD_dictMerge_single
    rw [filter_key_dictMerge_no_key _ _ _ hnk, hnone]
    simp [List.filter_cons, sidVal]

/-- Witness for C4 (amended) at a concrete input. -/
theorem post_teardown_actions_still_send_witness :
    (sendF 10 stAuth wTear payAct).2.1.session_id = none ∧
    (infoDnsZoneF 8 stFresh wOk "example.org").2.2.sent
      = wOk.sent ++ [nc_request stFresh "infoDnsZone"
          [("domainname", .atom (.aStr "example.org"))]] := by
  have h := post_teardown_actions_still_send stAuth stFresh wTear wOk 6 "sid"
    "example.org" z3600 ⟨[]⟩ payAct (by decide) (by decide) (by decide)
    (by decide)
  exact ⟨h.2.1, h.2.2.1⟩
